import Mathlib

/-!
Shallow embedding of the run-lifecycle coordinator in `ufcli/ufcli.go` of
ribasushi/go-toolbox, together with theorems settling the specification
claims about it.  Pure helpers (`promStr`, the argument scan of the
`app.Before` hook) become Lean functions; the stateful parts (the
`sync.Once`-guarded `shutdown` closure, the deferred recover/exit block,
`emitEndLogs`) become explicit state passing producing event traces.
-/

namespace UFcli

/-- Character class of the Go regexp `[^a-zA-Z0-9]+` in `ufcli.go:282`:
`isAlphanumChar c` is true exactly when `c` is NOT matched by the class,
i.e. when `c` is an ASCII letter or digit (which is precisely what
`Char.isAlphanum` tests). -/
def isAlphanumChar (c : Char) : Bool :=
  c.isAlphanum

/-- Core of `promStr` (`ufcli.go:283-285`), i.e. of
`regexp.MustCompile([^a-zA-Z0-9]+).ReplaceAllString(s, "_")`: every maximal
run of non-alphanumeric characters is replaced by a single underscore.  The
boolean flag records whether the scanner is currently inside such a run
(whose single replacement underscore has already been emitted). -/
def promStrCore : Bool → List Char → List Char
  | _, [] => []
  | inRun, c :: cs =>
    if isAlphanumChar c then
      c :: promStrCore false cs
    else if inRun then
      promStrCore true cs
    else
      '_' :: promStrCore true cs

/-- The Go function `promStr` (`ufcli.go:283-285`). -/
def promStr (s : String) : String := ⟨promStrCore false s.data⟩

/-- The instance-lock key built at `ufcli.go:262-264`:
`promStr(app.Name) + "-" + promStr(currentCmd)`. -/
def lockKey (appName currentCmd : String) : String :=
  promStr appName ++ "-" ++ promStr currentCmd

/-- The fully qualified metric-name stem built at `ufcli.go:117`:
`promStr(uf.AppConfig.Name + "_" + currentCmd)`. -/
def cmdFqName (appName currentCmd : String) : String :=
  promStr (appName ++ "_" ++ currentCmd)

/-- Modelled from the spec claim wording (for comparison with `cmdFqName`):
the metric-name stem obtained by concatenating the *separately* sanitized
appName and commandName with an underscore. -/
def specFqName (appName currentCmd : String) : String :=
  promStr appName ++ "_" ++ promStr currentCmd

theorem promStrCore_mem (l : List Char) :
    ∀ b, ∀ c ∈ promStrCore b l, isAlphanumChar c = true ∨ c = '_' := by
  induction l with
  | nil => intro b c hc; simp [promStrCore] at hc
  | cons c cs ih =>
    intro b d hd
    by_cases hc : isAlphanumChar c = true
    · rw [promStrCore, if_pos hc] at hd
      rcases List.mem_cons.mp hd with h | h
      · exact Or.inl (h ▸ hc)
      · exact ih false d h
    · rw [promStrCore, if_neg hc] at hd
      cases b with
      | true => exact ih true d (by simpa using hd)
      | false =>
        rcases List.mem_cons.mp (by simpa using hd) with h | h
        · exact Or.inr h
        · exact ih true d h

theorem promStrCore_inRun_head (l : List Char) :
    ∀ a, (promStrCore true l).head? = some a → isAlphanumChar a = true := by
  induction l with
  | nil => intro a h; simp [promStrCore] at h
  | cons c cs ih =>
    intro a h
    by_cases hc : isAlphanumChar c = true
    · rw [promStrCore, if_pos hc] at h
      simp at h
      exact h ▸ hc
    · rw [promStrCore, if_neg hc, if_pos rfl] at h
      exact ih a h

theorem promStrCore_no_double_underscore (l : List Char) :
    ∀ b, List.Chain' (fun a c => ¬(a = '_' ∧ c = '_')) (promStrCore b l) := by
  induction l with
  | nil => intro b; simp [promStrCore]
  | cons c cs ih =>
    intro b
    by_cases hc : isAlphanumChar c = true
    · rw [promStrCore, if_pos hc, List.chain'_cons']
      refine ⟨?_, ih false⟩
      intro d _ habs
      have h_ : isAlphanumChar '_' = true := habs.1 ▸ hc
      exact absurd h_ (by decide)
    · rw [promStrCore, if_neg hc]
      cases b with
      | true => simpa using ih true
      | false =>
        simp only [Bool.false_eq_true, if_false]
        rw [List.chain'_cons']
        refine ⟨?_, ih true⟩
        intro d hd habs
        have halnum := promStrCore_inRun_head cs d hd
        have h_ : isAlphanumChar '_' = true := habs.2 ▸ halnum
        exact absurd h_ (by decide)

/-- A urfave command as far as the `app.Before` hook reads it: a canonical
name plus a list of aliases (`ufcli.go:226-233`). -/
structure GoCommand where
  name : String
  aliases : List String
deriving DecidableEq, Repr

/-- The `cmdNames` map built at `ufcli.go:225-234`: every alias (and the
canonical name itself) maps to the canonical name, the built-in `help`
pseudo-command excluded.  Represented as the insertion-ordered association
list; `mapGet` below applies Go map semantics (the last insert wins). -/
def buildCmdNames (cmds : List GoCommand) : List (String × String) :=
  (cmds.filter (fun c => c.name ≠ "help")).flatMap
    (fun c => (c.name, c.name) :: c.aliases.map (fun a => (a, c.name)))

/-- Go map read `m[k]`: the most recently inserted value for `k`, or the
zero value `""` when `k` is absent. -/
def mapGet (m : List (String × String)) (k : String) : String :=
  match (m.filter (fun p => p.1 = k)).getLast? with
  | some p => p.2
  | none => ""

/-- Outcome of the out-of-band `os.Args` scan of `ufcli.go:236-258`. -/
inductive CmdResolution
  | helpRequested
  | noCommand
  | resolved (name : String)
deriving DecidableEq, Repr

/-- The `for i := 1; i < len(os.Args); i++` loop of `ufcli.go:237-248`,
threading the mutable `currentCmd` (`cur`).  `none` models the early
`return nil` on a help flag; `some cur` is the value of `currentCmd` after
the loop. -/
def scanLoop (cmdNames : List (String × String)) : List String → String → Option String
  | [], cur => some cur
  | a :: rest, cur =>
    if a = "-h" || a = "--help" then
      none
    else if cur ≠ "" then
      scanLoop cmdNames rest cur
    else
      scanLoop cmdNames rest (mapGet cmdNames a)

/-- Command resolution of `ufcli.go:224-259`: scan `os.Args` past the
program name, then apply the `"Action"` sentinel when there are no
subcommands (`ufcli.go:251-253`) and the empty-command early return
(`ufcli.go:256-258`). -/
def resolveCommand (cmdNames : List (String × String)) (argv : List String) :
    CmdResolution :=
  match scanLoop cmdNames argv.tail "" with
  | none => .helpRequested
  | some cur =>
    let cur' := if cmdNames.isEmpty then "Action" else cur
    if cur' = "" then .noCommand else .resolved cur'

/-- Log levels of the logger capability. -/
inductive LogLevel
  | info
  | warn
  | error
deriving DecidableEq, Repr

/-- Observable actions of one run of `RunAndExit`, in program order. -/
inductive Event
  | lockAttempt (key : String)
  | lockRelease
  | beginLog (cmd : String)
  | warnLog (msg : String)
  | errorLog (msg : String)
  | finishLog (cmd : String) (level : LogLevel) (success : Bool) (tookMs : Nat)
  | gaugeSet (metricName : String) (value : Nat)
  | promPush (url : String) (job : String)
  | preShutdownCb
  | cancelCtx
  | closeResources
  | sleepGrace
  | exitProc (code : Nat)
deriving DecidableEq, Repr

/-- The steps of the shutdown body singled out by the spec's ordering
contract: pre-shutdown callback, root-context cancellation, resource
closer. -/
def isCoreStep : Event → Bool
  | .preShutdownCb => true
  | .cancelCtx => true
  | .closeResources => true
  | _ => false

/-- Events produced by the OutcomeRecorder (`emitEndLogs`): FINISH logs,
gauge values, metric pushes. -/
def isRecordEvent : Event → Bool
  | .finishLog _ _ _ _ => true
  | .gaugeSet _ _ => true
  | .promPush _ _ => true
  | _ => false

/-- Lock-acquisition attempts (`fslock.Lock` calls, `ufcli.go:262`). -/
def isLockAttempt : Event → Bool
  | .lockAttempt _ => true
  | _ => false

/-- BEGIN log emissions (`ufcli.go:269`). -/
def isBeginLog : Event → Bool
  | .beginLog _ => true
  | _ => false

/-- Configuration the `shutdown` closure captures (`ufcli.go:53-77`):
`uf.BeforeShutdown` (`none` when the Go field is nil, otherwise the error
the callback returns) and `resourcesCloser` (likewise). -/
structure ShutdownConfig where
  beforeShutdown : Option (Option String)
  resourcesCloser : Option (Option String)
deriving DecidableEq, Repr

/-- Warning emitted when a cleanup step returns an error. -/
def warnOf (pre : String) : Option String → List Event
  | some e => [Event.warnLog (pre ++ e)]
  | none => []

/-- One execution of the body of the `o.Do` closure in `shutdown`
(`ufcli.go:57-76`): optional pre-shutdown callback with its error logged
as a warning, root-context cancellation, optional resource closer with its
error logged as a warning, and the 250ms grace sleep on non-normal paths. -/
def shutdownBody (cfg : ShutdownConfig) (isNormal : Bool) : List Event :=
  (match cfg.beforeShutdown with
   | none => []
   | some r =>
     Event.preShutdownCb :: warnOf "error encountered during before-shutdown cleanup: " r) ++
  [Event.cancelCtx] ++
  (match cfg.resourcesCloser with
   | none => []
   | some r =>
     Event.closeResources :: warnOf "error encountered during after-shutdown cleanup: " r) ++
  (if isNormal then [] else [Event.sleepGrace])

/-- One call of `shutdown(isNormal)` (`ufcli.go:56-77`): the `sync.Once`
guard `o` runs the body only if it has not fired yet.  Returns the new
guard state and the events produced. -/
def shutdownCall (cfg : ShutdownConfig) (fired : Bool) (isNormal : Bool) :
    Bool × List Event :=
  if fired then (true, []) else (true, shutdownBody cfg isNormal)

/-- A sequence of `shutdown` calls (the `sync.Once` serializes racing
callers, so any set of trigger paths is a sequence of calls with the
respective `isNormal` flags). -/
def shutdownCalls (cfg : ShutdownConfig) (fired : Bool) : List Bool → List Event
  | [] => []
  | n :: rest =>
    (shutdownCall cfg fired n).2 ++ shutdownCalls cfg (shutdownCall cfg fired n).1 rest

theorem shutdownCalls_fired (cfg : ShutdownConfig) (calls : List Bool) :
    shutdownCalls cfg true calls = [] := by
  induction calls with
  | nil => rfl
  | cons n rest ih => simp [shutdownCalls, shutdownCall, ih]

theorem shutdownCalls_first (cfg : ShutdownConfig) (n : Bool) (calls : List Bool) :
    shutdownCalls cfg false (n :: calls) = shutdownBody cfg n := by
  simp [shutdownCalls, shutdownCall, shutdownCalls_fired]

theorem shutdownBody_filter_core (cfg : ShutdownConfig) (n : Bool) :
    (shutdownBody cfg n).filter isCoreStep =
      (if (cfg.beforeShutdown).isSome then [Event.preShutdownCb] else []) ++
      [Event.cancelCtx] ++
      (if (cfg.resourcesCloser).isSome then [Event.closeResources] else []) := by
  rcases cfg with ⟨b, r⟩
  rcases b with _ | b <;> rcases r with _ | r <;>
    cases n <;>
    first
    | (rcases b with _ | b <;> rcases r with _ | r <;>
        simp [shutdownBody, warnOf, isCoreStep])
    | (rcases b with _ | b <;> simp [shutdownBody, warnOf, isCoreStep])
    | (rcases r with _ | r <;> simp [shutdownBody, warnOf, isCoreStep])
    | simp [shutdownBody, warnOf, isCoreStep]

theorem shutdownBody_no_errorLog (cfg : ShutdownConfig) (n : Bool) (m : String) :
    Event.errorLog m ∉ shutdownBody cfg n := by
  rcases cfg with ⟨b, r⟩
  rcases b with _ | b <;> rcases r with _ | r <;>
    cases n <;>
    first
    | (rcases b with _ | b <;> rcases r with _ | r <;>
        simp [shutdownBody, warnOf])
    | (rcases b with _ | b <;> simp [shutdownBody, warnOf])
    | (rcases r with _ | r <;> simp [shutdownBody, warnOf])
    | simp [shutdownBody, warnOf]

theorem shutdownBody_filter_record (cfg : ShutdownConfig) (n : Bool) :
    (shutdownBody cfg n).filter isRecordEvent = [] := by
  rcases cfg with ⟨b, r⟩
  rcases b with _ | b <;> rcases r with _ | r <;>
    cases n <;>
    first
    | (rcases b with _ | b <;> rcases r with _ | r <;>
        simp [shutdownBody, warnOf, isRecordEvent])
    | (rcases b with _ | b <;> simp [shutdownBody, warnOf, isRecordEvent])
    | (rcases r with _ | r <;> simp [shutdownBody, warnOf, isRecordEvent])
    | simp [shutdownBody, warnOf, isRecordEvent]

/-- The `promPushConf` struct filled from hidden flags (`ufcli.go:97-102`,
`217-220`). -/
structure PromPushConf where
  url : String
  user : String
  pass : String
  instanceLabel : String
deriving DecidableEq, Repr

/-- The `emitEndLogs(wasSuccess)` closure (`ufcli.go:104-148`): a no-op
when `currentCmdLock` was never set; otherwise it truncates the elapsed
time to milliseconds, sets the `<fq>_run_time` gauge, emits the FINISH log
at info (success) or warn (failure) level, sets the `<fq>_success` gauge
to 1/0, and, when a push URL is configured, pushes both gauges under the
job name `promStr(currentCmd)`, logging any push error as a warning. -/
def emitEndLogs (appName currentCmd : String) (lockHeld : Bool) (tookNs : Nat)
    (push : PromPushConf) (pushErr : Option String) (wasSuccess : Bool) :
    List Event :=
  if !lockHeld then
    []
  else
    let tookMs := tookNs / 1000000
    let fq := cmdFqName appName currentCmd
    [Event.gaugeSet (fq ++ "_run_time") tookMs,
     Event.finishLog currentCmd (if wasSuccess then .info else .warn) wasSuccess tookMs,
     Event.gaugeSet (fq ++ "_success") (if wasSuccess then 1 else 0)] ++
    (if push.url ≠ "" then
       Event.promPush push.url (promStr currentCmd) ::
         warnOf ("push of prometheus metrics to '" ++ push.url ++ "' failed: ") pushErr
     else [])

/-- An error value as the deferred block inspects it: its rendered text and
whether `errors.As(err, new(fslock.LockedError))` holds for it. -/
structure ErrInfo where
  text : String
  isLocked : Bool
deriving DecidableEq, Repr

/-- The recover branch of the deferred block (`ufcli.go:155-161`): a panic
value `r` (with its stack trace) takes precedence, composed with any
already-captured `scopeErr` via `fmt.Errorf` (no `%w`, so the composed
error no longer unwraps to `fslock.LockedError`). -/
def combineScopeErr (scopeErr : Option ErrInfo) :
    Option (String × String) → Option ErrInfo
  | none => scopeErr
  | some (r, stack) =>
    match scopeErr with
    | none => some ⟨"panic encountered: " ++ r ++ "\n" ++ stack, false⟩
    | some e =>
      some ⟨"panic encountered (in addition to error '" ++ e.text ++ "'): " ++
              r ++ "\n" ++ stack, false⟩

/-- The deferred endstate block (`ufcli.go:152-179`): combine a recovered
panic into `scopeErr`; on a lock-held error with non-interactive stderr,
shut down quietly and exit 1; on any other error, log it, emit end logs
with `wasSuccess=false`, shut down and exit 1; otherwise emit end logs
with `wasSuccess=true`, shut down and exit 0. -/
def deferBlock (cfg : ShutdownConfig) (appName currentCmd : String)
    (lockHeld : Bool) (tookNs : Nat) (push : PromPushConf)
    (pushErr : Option String) (scopeErr : Option ErrInfo)
    (panicInfo : Option (String × String)) (isTTY : Bool) :
    List Event × Nat :=
  match combineScopeErr scopeErr panicInfo with
  | some e =>
    if e.isLocked && !isTTY then
      (shutdownCalls cfg false [true] ++ [Event.exitProc 1], 1)
    else
      (Event.errorLog e.text ::
         (emitEndLogs appName currentCmd lockHeld tookNs push pushErr false ++
          shutdownCalls cfg false [false] ++ [Event.exitProc 1]), 1)
  | none =>
    (emitEndLogs appName currentCmd lockHeld tookNs push pushErr true ++
       shutdownCalls cfg false [true] ++ [Event.exitProc 0], 0)

/-- Rendered text of the distinguishable `fslock.LockedError` the external
lock library returns when another process holds `key` (modelled
abstractly: only its text and its `errors.As`-distinguishability matter to
the coordinator). -/
def lockedErrText (key : String) : String :=
  "someone else has the lock: " ++ key

/-- One run's inputs: the static configuration plus the behaviour of the
external collaborators (config source, lock library, command engine) and
the run's elapsed time. -/
structure RunInput where
  appName : String
  commands : List GoCommand
  argv : List String
  configErr : Option String
  push : PromPushConf
  lockFree : Bool
  hasGlobalInit : Bool
  globalInitErr : Option String
  globalInitCloser : Option (Option String)
  beforeShutdown : Option (Option String)
  cmdErr : Option String
  panicInfo : Option (String × String)
  isTTY : Bool
  tookNs : Nat
  pushErr : Option String
deriving DecidableEq, Repr

/-- Result of the `app.Before` hook (`ufcli.go:198-275`) as the rest of the
run observes it: the events it produced, whether and which lock is held,
the resolved `currentCmd`, the `resourcesCloser` state, and the error the
hook returned (which the engine then returns as its own result). -/
structure BeforeResult where
  events : List Event
  lockHeld : Bool
  currentCmd : String
  closer : Option (Option String)
  err : Option ErrInfo
deriving DecidableEq, Repr

/-- The `app.Before` hook (`ufcli.go:198-275`): config-file load (a failure
is wrapped and returned), the out-of-band command resolution, the early
returns for help/no-command, `fslock.Lock` keyed by
`promStr(appName)-promStr(currentCmd)` (its error returned unwrapped on
purpose), the BEGIN log, and the optional `GlobalInit` whose closer is
captured even when it also returns an error. -/
def beforeHook (inp : RunInput) : BeforeResult :=
  match inp.configErr with
  | some e => ⟨[], false, "", none, some ⟨e, false⟩⟩
  | none =>
    match resolveCommand (buildCmdNames inp.commands) inp.argv with
    | .helpRequested => ⟨[], false, "", none, none⟩
    | .noCommand => ⟨[], false, "", none, none⟩
    | .resolved cmd =>
      let key := lockKey inp.appName cmd
      if !inp.lockFree then
        ⟨[Event.lockAttempt key], false, cmd, none, some ⟨lockedErrText key, true⟩⟩
      else
        let evs := [Event.lockAttempt key, Event.beginLog cmd]
        if inp.hasGlobalInit then
          match inp.globalInitErr with
          | some e => ⟨evs, true, cmd, inp.globalInitCloser, some ⟨e, false⟩⟩
          | none => ⟨evs, true, cmd, inp.globalInitCloser, none⟩
        else
          ⟨evs, true, cmd, none, none⟩

/-- The `scopeErr` captured at `ufcli.go:279`: the engine returns the
`Before` hook's error when that hook failed, otherwise the command body's
own result (the engine contract of spec §6). -/
def runScopeErr (inp : RunInput) (b : BeforeResult) : Option ErrInfo :=
  match b.err with
  | some e => some e
  | none => inp.cmdErr.map (fun m => ⟨m, false⟩)

/-- Shutdown configuration as captured by the closures at the time the
deferred block runs. -/
def shutdownConfigOf (inp : RunInput) (b : BeforeResult) : ShutdownConfig :=
  ⟨inp.beforeShutdown, b.closer⟩

/-- The whole of `RunAndExit` (`ufcli.go:50-280`) on the main path: run
the `Before` hook and the engine, then the deferred endstate block, which
terminates the process.  Produces the event trace and the exit code. -/
def runAndExit (inp : RunInput) : List Event × Nat :=
  let b := beforeHook inp
  let d := deferBlock (shutdownConfigOf inp b) inp.appName b.currentCmd b.lockHeld
             inp.tookNs inp.push inp.pushErr (runScopeErr inp b) inp.panicInfo
             inp.isTTY
  (b.events ++ d.1, d.2)

/-- Shape of events the OutcomeRecorder can produce: gauge settings, a
FINISH entry carrying the current command and the branch success flag,
pushes, and push-failure warnings. -/
def recordEventShape (c : String) (s : Bool) : Event → Prop
  | .gaugeSet _ _ => True
  | .finishLog c2 _ s2 _ => c2 = c ∧ s2 = s
  | .promPush _ _ => True
  | .warnLog _ => True
  | _ => False

/-- Shape of events the body of the shutdown closure can produce. -/
def shutdownEventShape : Event → Prop
  | .preShutdownCb => True
  | .cancelCtx => True
  | .closeResources => True
  | .sleepGrace => True
  | .warnLog _ => True
  | _ => False

/-- Shape of events the `Before` hook can produce. -/
def hookEventShape : Event → Prop
  | .lockAttempt _ => True
  | .beginLog _ => True
  | _ => False

/-- Shape of events the deferred endstate block can produce: anything
except lock attempts, lock releases and BEGIN logs, with FINISH entries
pinned to the current command and the branch success flag. -/
def deferEventShape (c : String) (s : Bool) : Event → Prop
  | .lockAttempt _ => False
  | .lockRelease => False
  | .beginLog _ => False
  | .finishLog c2 _ s2 _ => c2 = c ∧ s2 = s
  | _ => True

theorem mem_emitEndLogs (ev : Event) (a c : String) (lh : Bool) (tn : Nat)
    (p : PromPushConf) (pe : Option String) (s : Bool)
    (h : ev ∈ emitEndLogs a c lh tn p pe s) : recordEventShape c s ev := by
  cases lh with
  | false => simp [emitEndLogs] at h
  | true =>
    by_cases hu : p.url = ""
    · simp [emitEndLogs, hu] at h
      rcases h with h | h | h <;> subst h <;> simp [recordEventShape]
    · rcases pe with _ | e <;> simp [emitEndLogs, hu, warnOf] at h
      · rcases h with h | h | h | h <;> subst h <;> simp [recordEventShape]
      · rcases h with h | h | h | h | h <;> subst h <;> simp [recordEventShape]

theorem mem_warnOf (ev : Event) (pre : String) (r : Option String)
    (h : ev ∈ warnOf pre r) : ∃ m, ev = Event.warnLog m := by
  rcases r with _ | e <;> simp [warnOf] at h
  exact ⟨_, h⟩

theorem mem_shutdownBody (ev : Event) (cfg : ShutdownConfig) (n : Bool)
    (h : ev ∈ shutdownBody cfg n) : shutdownEventShape ev := by
  simp only [shutdownBody, List.mem_append] at h
  rcases h with ((h | h) | h) | h
  · rcases hb : cfg.beforeShutdown with _ | r <;> rw [hb] at h
    · simp at h
    · rcases List.mem_cons.mp h with h | h
      · subst h
        exact trivial
      · obtain ⟨m, hm⟩ := mem_warnOf _ _ _ h
        subst hm
        exact trivial
  · simp at h
    subst h
    exact trivial
  · rcases hr : cfg.resourcesCloser with _ | r <;> rw [hr] at h
    · simp at h
    · rcases List.mem_cons.mp h with h | h
      · subst h
        exact trivial
      · obtain ⟨m, hm⟩ := mem_warnOf _ _ _ h
        subst hm
        exact trivial
  · cases n <;> simp at h
    subst h
    exact trivial

theorem beforeHook_events_cases (inp : RunInput) :
    (beforeHook inp).events = [] ∨
    (beforeHook inp).events =
      [Event.lockAttempt (lockKey inp.appName (beforeHook inp).currentCmd)] ∨
    (beforeHook inp).events =
      [Event.lockAttempt (lockKey inp.appName (beforeHook inp).currentCmd),
       Event.beginLog (beforeHook inp).currentCmd] := by
  unfold beforeHook
  rcases inp.configErr with _ | e
  · rcases hres : resolveCommand (buildCmdNames inp.commands) inp.argv with _ | _ | cmd
    · simp
    · simp
    · cases hl : inp.lockFree
      · simp
      · cases hg : inp.hasGlobalInit
        · simp
        · rcases inp.globalInitErr with _ | ge <;> simp
  · simp

theorem mem_beforeHook_events (ev : Event) (inp : RunInput)
    (h : ev ∈ (beforeHook inp).events) : hookEventShape ev := by
  rcases beforeHook_events_cases inp with hc | hc | hc <;> rw [hc] at h <;>
    simp at h
  · subst h
    exact trivial
  · rcases h with h | h <;> subst h <;> exact trivial

/-- C6 (corrected claim).  The metric-name stem and each of the two
hyphen-joined components of the instance-lock key consist only of
alphanumeric characters and single underscores — every run of
non-alphanumeric characters in the input is replaced by one underscore,
and the output never contains two adjacent underscores; the lock key
itself is the two sanitized components joined by a literal hyphen; in
particular sanitizing `"my-app v2!!"` yields `"my_app_v2_"`. -/
theorem c6_token_sanitization :
    (∀ s : String,
       (∀ c ∈ (promStr s).data, isAlphanumChar c = true ∨ c = '_') ∧
       List.Chain' (fun a b => ¬(a = '_' ∧ b = '_')) (promStr s).data) ∧
    (∀ appName cmd : String,
       lockKey appName cmd = promStr appName ++ "-" ++ promStr cmd) ∧
    (∀ appName cmd : String,
       cmdFqName appName cmd = promStr (appName ++ "_" ++ cmd)) ∧
    promStr "my-app v2!!" = "my_app_v2_" := by
  refine ⟨fun s => ⟨?_, ?_⟩, fun _ _ => rfl, fun _ _ => rfl, by decide⟩
  · exact promStrCore_mem s.data false
  · exact promStrCore_no_double_underscore s.data false

/-- C6 counterexample.  The claim as stated fails for the lock token: the
key built at `ufcli.go:262-264` joins the two sanitized components with a
literal `'-'`, which is neither alphanumeric nor an underscore. -/
theorem c6_counterexample :
    '-' ∈ (lockKey "a" "b").data ∧ isAlphanumChar '-' = false ∧ '-' ≠ '_' := by
  decide

/-- C7 (corrected claim).  For every recorded outcome the two metric names
are obtained by sanitizing the underscore-joined concatenation of the
application name and the command name (`promStr(appName + "_" + cmd)`),
suffixed `_run_time` and `_success`; the run-time gauge carries the
duration truncated to milliseconds and the success gauge carries 1/0; the
FINISH log is emitted at info level on success and warn level on failure;
for a successful 1500ms run the recorder reports run_time 1500, a FINISH
at info level, and success 1. -/
theorem c7_outcome_recorder (appName cmd : String) (tookNs : Nat)
    (push : PromPushConf) (pushErr : Option String) (success : Bool) :
    (Event.gaugeSet (cmdFqName appName cmd ++ "_run_time") (tookNs / 1000000)
        ∈ emitEndLogs appName cmd true tookNs push pushErr success) ∧
    (Event.gaugeSet (cmdFqName appName cmd ++ "_success")
          (if success then 1 else 0)
        ∈ emitEndLogs appName cmd true tookNs push pushErr success) ∧
    (Event.finishLog cmd (if success then .info else .warn) success
          (tookNs / 1000000)
        ∈ emitEndLogs appName cmd true tookNs push pushErr success) ∧
    (emitEndLogs appName cmd true 1500000000 push pushErr true).take 3 =
      [Event.gaugeSet (cmdFqName appName cmd ++ "_run_time") 1500,
       Event.finishLog cmd .info true 1500,
       Event.gaugeSet (cmdFqName appName cmd ++ "_success") 1] := by
  by_cases hu : push.url = "" <;>
    refine ⟨?_, ?_, ?_, ?_⟩ <;>
    simp [emitEndLogs, hu]

/-- C7 counterexample.  The claim as stated computes the metric-name stem
by concatenating the *separately* sanitized names with an underscore; the
code instead sanitizes the joined string (`ufcli.go:117`), and the two
disagree whenever the boundary characters are non-alphanumeric, e.g. for
appName `"a-"` and command `"b"`. -/
theorem c7_counterexample :
    cmdFqName "a-" "b" ≠ specFqName "a-" "b" ∧
    Event.gaugeSet (cmdFqName "a-" "b" ++ "_run_time") 1500
      ∈ emitEndLogs "a-" "b" true 1500000000 ⟨"", "", "", ""⟩ none true ∧
    Event.gaugeSet (specFqName "a-" "b" ++ "_run_time") 1500
      ∉ emitEndLogs "a-" "b" true 1500000000 ⟨"", "", "", ""⟩ none true := by
  decide

theorem recordShape_defer (c : String) (s : Bool) (ev : Event)
    (h : recordEventShape c s ev) : deferEventShape c s ev := by
  cases ev <;> first
    | exact h.elim
    | exact h

theorem shutdownShape_defer (c : String) (s : Bool) (ev : Event)
    (h : shutdownEventShape ev) : deferEventShape c s ev := by
  cases ev <;> first
    | exact h.elim
    | exact h

theorem mem_deferBlock (ev : Event) (cfg : ShutdownConfig) (a c : String)
    (lh : Bool) (tn : Nat) (p : PromPushConf) (pe : Option String)
    (se : Option ErrInfo) (pi : Option (String × String)) (tty : Bool)
    (h : ev ∈ (deferBlock cfg a c lh tn p pe se pi tty).1) :
    deferEventShape c (combineScopeErr se pi).isNone ev := by
  unfold deferBlock at h
  rcases hse : combineScopeErr se pi with _ | e <;> rw [hse] at h
  · simp only [List.mem_append] at h
    rcases h with (h | h) | h
    · exact recordShape_defer _ _ _ (mem_emitEndLogs ev a c lh tn p pe true h)
    · rw [shutdownCalls_first] at h
      exact shutdownShape_defer _ _ _ (mem_shutdownBody ev cfg true h)
    · simp at h
      subst h
      exact trivial
  · by_cases hl : (e.isLocked && !tty) = true <;> simp only [hl, if_true,
      if_false, Bool.false_eq_true] at h
    · simp only [List.mem_append] at h
      rcases h with h | h
      · rw [shutdownCalls_first] at h
        exact shutdownShape_defer _ _ _ (mem_shutdownBody ev cfg true h)
      · simp at h
        subst h
        exact trivial
    · rcases List.mem_cons.mp h with h | h
      · subst h
        exact trivial
      · simp only [List.mem_append] at h
        rcases h with (h | h) | h
        · exact recordShape_defer _ _ _
            (mem_emitEndLogs ev a c lh tn p pe false h)
        · rw [shutdownCalls_first] at h
          exact shutdownShape_defer _ _ _ (mem_shutdownBody ev cfg false h)
        · simp at h
          subst h
          exact trivial

theorem mem_runAndExit (ev : Event) (inp : RunInput)
    (h : ev ∈ (runAndExit inp).1) :
    hookEventShape ev ∨
    deferEventShape (beforeHook inp).currentCmd
      (combineScopeErr (runScopeErr inp (beforeHook inp))
        inp.panicInfo).isNone ev := by
  simp only [runAndExit, List.mem_append] at h
  rcases h with h | h
  · exact Or.inl (mem_beforeHook_events ev inp h)
  · exact Or.inr (mem_deferBlock ev _ _ _ _ _ _ _ _ _ _ h)


/-- C1 (confirmed).  However many times and with whatever `isNormal` flags
the `sync.Once`-guarded `shutdown` function is invoked, its body runs
exactly once — the whole trace of any call sequence equals the body of the
first call and every later call contributes nothing — and within that body
the pre-shutdown callback (when configured) comes first, then the
root-context cancellation, then the resource closer (when one was
returned by global initialization); errors of the callback or closer are
logged as warnings and are never propagated (no error log, no exit). -/
theorem c1_shutdown_exactly_once (cfg : ShutdownConfig) (n : Bool)
    (calls : List Bool) :
    shutdownCalls cfg false (n :: calls) = shutdownBody cfg n ∧
    shutdownCalls cfg true calls = [] ∧
    (shutdownBody cfg n).filter isCoreStep =
      (if (cfg.beforeShutdown).isSome then [Event.preShutdownCb] else []) ++
      [Event.cancelCtx] ++
      (if (cfg.resourcesCloser).isSome then [Event.closeResources] else []) ∧
    (∀ m, Event.errorLog m ∉ shutdownBody cfg n) ∧
    (∀ c, Event.exitProc c ∉ shutdownBody cfg n) ∧
    (∀ e, cfg.beforeShutdown = some (some e) →
       Event.warnLog ("error encountered during before-shutdown cleanup: " ++ e)
         ∈ shutdownBody cfg n) ∧
    (∀ e, cfg.resourcesCloser = some (some e) →
       Event.warnLog ("error encountered during after-shutdown cleanup: " ++ e)
         ∈ shutdownBody cfg n) := by
  refine ⟨shutdownCalls_first cfg n calls, shutdownCalls_fired cfg calls,
    shutdownBody_filter_core cfg n, shutdownBody_no_errorLog cfg n, ?_, ?_, ?_⟩
  · intro c hc
    exact mem_shutdownBody _ cfg n hc
  · intro e he
    simp [shutdownBody, he, warnOf]
  · intro e he
    simp [shutdownBody, he, warnOf]

theorem c1_witness :
    shutdownCalls ⟨some (some "cbfail"), some (some "closefail")⟩ false
        [false, true] =
      shutdownBody ⟨some (some "cbfail"), some (some "closefail")⟩ false ∧
    Event.warnLog ("error encountered during before-shutdown cleanup: " ++ "cbfail")
      ∈ shutdownBody ⟨some (some "cbfail"), some (some "closefail")⟩ false ∧
    Event.warnLog ("error encountered during after-shutdown cleanup: " ++ "closefail")
      ∈ shutdownBody ⟨some (some "cbfail"), some (some "closefail")⟩ false :=
  ⟨(c1_shutdown_exactly_once ⟨some (some "cbfail"), some (some "closefail")⟩
      false [true]).1,
   (c1_shutdown_exactly_once ⟨some (some "cbfail"), some (some "closefail")⟩
      false [true]).2.2.2.2.2.1 "cbfail" rfl,
   (c1_shutdown_exactly_once ⟨some (some "cbfail"), some (some "closefail")⟩
      false [true]).2.2.2.2.2.2 "closefail" rfl⟩

/-- C3 (corrected claim).  The shutdown sequence does not release the
instance-lock handle, and no part of the run ever does: `RunAndExit` never
closes `currentCmdLock`, so the handle stays held until the process exits
(the operating system then releases the file lock); in particular no
release is attempted when acquisition did not succeed. -/
theorem c3_lock_never_released :
    (∀ (cfg : ShutdownConfig) (fired : Bool) (calls : List Bool),
        Event.lockRelease ∉ shutdownCalls cfg fired calls) ∧
    (∀ inp : RunInput, Event.lockRelease ∉ (runAndExit inp).1) := by
  constructor
  · intro cfg fired calls
    induction calls generalizing fired with
    | nil => simp [shutdownCalls]
    | cons n rest ih =>
      intro hmem
      rcases hf : fired
      · rw [shutdownCalls, hf] at hmem
        simp only [shutdownCall, Bool.false_eq_true, if_false, List.mem_append] at hmem
        rcases hmem with hmem | hmem
        · exact mem_shutdownBody _ cfg n hmem
        · exact ih true hmem
      · rw [shutdownCalls, hf] at hmem
        simp only [shutdownCall, if_true, List.nil_append] at hmem
        exact ih true hmem
  · intro inp hmem
    rcases mem_runAndExit _ inp hmem with h | h <;> exact h

/-- C3 counterexample.  A concrete run in which the lock was acquired
(`lockHeld` is true after the `Before` hook) and whose complete event
trace nevertheless contains no release of the handle — contradicting the
claim that the handle is released during the shutdown sequence. -/
theorem c3_counterexample :
    (beforeHook ⟨"app", [⟨"foo", []⟩], ["prog", "foo"], none, ⟨"", "", "", ""⟩,
        true, false, none, none, none, none, none, false, 7, none⟩).lockHeld
      = true ∧
    Event.lockRelease ∉
      (runAndExit ⟨"app", [⟨"foo", []⟩], ["prog", "foo"], none, ⟨"", "", "", ""⟩,
          true, false, none, none, none, none, none, false, 7, none⟩).1 := by
  decide

theorem combineScopeErr_eq_none (se : Option ErrInfo)
    (pi : Option (String × String)) :
    combineScopeErr se pi = none ↔ se = none ∧ pi = none := by
  rcases pi with _ | ⟨r, stk⟩ <;> rcases se with _ | e <;> simp [combineScopeErr]

theorem runAndExit_code (inp : RunInput) :
    (runAndExit inp).2 =
      if (combineScopeErr (runScopeErr inp (beforeHook inp)) inp.panicInfo).isSome
      then 1 else 0 := by
  unfold runAndExit deferBlock
  rcases h : combineScopeErr (runScopeErr inp (beforeHook inp)) inp.panicInfo
    with _ | e
  · simp [h]
  · simp only [h, Option.isSome_some, if_true]
    split <;> rfl

theorem runAndExit_last (inp : RunInput) :
    (runAndExit inp).1.getLast? = some (Event.exitProc (runAndExit inp).2) := by
  unfold runAndExit deferBlock
  rcases h : combineScopeErr (runScopeErr inp (beforeHook inp)) inp.panicInfo
    with _ | e
  · simp only [h]
    rw [List.getLast?_append_of_ne_nil _ (by simp),
      List.getLast?_append_of_ne_nil _ (by simp)]
    rfl
  · simp only [h]
    split
    · rw [List.getLast?_append_of_ne_nil _ (by simp),
        List.getLast?_append_of_ne_nil _ (by simp)]
      rfl
    · rw [List.getLast?_append_cons, ← List.cons_append,
        List.getLast?_append_cons]
      rfl

theorem beforeHook_err_indep (inp inp' : RunInput)
    (h1 : inp'.appName = inp.appName) (h2 : inp'.commands = inp.commands)
    (h3 : inp'.argv = inp.argv) (h4 : inp'.configErr = inp.configErr)
    (h5 : inp'.lockFree = inp.lockFree)
    (h6 : inp'.hasGlobalInit = inp.hasGlobalInit)
    (h7 : inp'.globalInitErr = inp.globalInitErr) :
    (beforeHook inp').err = (beforeHook inp).err := by
  unfold beforeHook
  rw [h1, h2, h3, h4, h5, h6, h7]
  rcases inp.configErr with _ | e
  · rcases resolveCommand (buildCmdNames inp.commands) inp.argv with _ | _ | cmd
    · rfl
    · rfl
    · cases inp.lockFree
      · rfl
      · cases inp.hasGlobalInit
        · rfl
        · rcases inp.globalInitErr with _ | ge <;> rfl
  · rfl

/-- C4 (confirmed).  `RunAndExit` always terminates the process: every
trace ends in an exit event whose code is 0 exactly when no error was
captured (no `Before`-hook failure, no command error, no panic) and 1
otherwise — any returned command error, configuration/initialization
failure, panic, or lock contention; the exit code is unchanged under any
variation of the pre-shutdown callback error, the resource-closer error,
or the metrics-push error, which are logged as warnings only. -/
theorem c4_exit_codes (inp : RunInput) :
    ((runAndExit inp).2 = 0 ∨ (runAndExit inp).2 = 1) ∧
    (runAndExit inp).1.getLast? = some (Event.exitProc (runAndExit inp).2) ∧
    ((runAndExit inp).2 = 0 ↔
       runScopeErr inp (beforeHook inp) = none ∧ inp.panicInfo = none) ∧
    (∀ bs ce pe : Option String,
       (runAndExit (RunInput.mk inp.appName inp.commands inp.argv inp.configErr
           inp.push inp.lockFree inp.hasGlobalInit inp.globalInitErr
           (inp.globalInitCloser.map fun _ => ce)
           (inp.beforeShutdown.map fun _ => bs) inp.cmdErr inp.panicInfo
           inp.isTTY inp.tookNs pe)).2 = (runAndExit inp).2) := by
  refine ⟨?_, runAndExit_last inp, ?_, ?_⟩
  · rw [runAndExit_code]
    split
    · exact Or.inr rfl
    · exact Or.inl rfl
  · rw [runAndExit_code]
    rcases h : combineScopeErr (runScopeErr inp (beforeHook inp)) inp.panicInfo
      with _ | e
    · simp only [Option.isSome_none, Bool.false_eq_true, if_false]
      simp [(combineScopeErr_eq_none _ _).mp h]
    · have hne : ¬(runScopeErr inp (beforeHook inp) = none ∧ inp.panicInfo = none) := by
        intro hc
        rw [(combineScopeErr_eq_none _ _).mpr hc] at h
        exact Option.noConfusion h
      simp only [Option.isSome_some, if_true]
      simp [hne]
  · intro bs ce pe
    rw [runAndExit_code, runAndExit_code]
    have herr := beforeHook_err_indep inp
      (RunInput.mk inp.appName inp.commands inp.argv inp.configErr
        inp.push inp.lockFree inp.hasGlobalInit inp.globalInitErr
        (inp.globalInitCloser.map fun _ => ce)
        (inp.beforeShutdown.map fun _ => bs) inp.cmdErr inp.panicInfo
        inp.isTTY inp.tookNs pe) rfl rfl rfl rfl rfl rfl rfl
    have hse : runScopeErr
        (RunInput.mk inp.appName inp.commands inp.argv inp.configErr
          inp.push inp.lockFree inp.hasGlobalInit inp.globalInitErr
          (inp.globalInitCloser.map fun _ => ce)
          (inp.beforeShutdown.map fun _ => bs) inp.cmdErr inp.panicInfo
          inp.isTTY inp.tookNs pe)
        (beforeHook
          (RunInput.mk inp.appName inp.commands inp.argv inp.configErr
            inp.push inp.lockFree inp.hasGlobalInit inp.globalInitErr
            (inp.globalInitCloser.map fun _ => ce)
            (inp.beforeShutdown.map fun _ => bs) inp.cmdErr inp.panicInfo
            inp.isTTY inp.tookNs pe)) =
        runScopeErr inp (beforeHook inp) := by
      unfold runScopeErr
      rw [herr]
    rw [hse]

theorem combineScopeErr_panic (se : Option ErrInfo) (r stk : String) :
    (combineScopeErr se (some (r, stk))).isSome = true := by
  rcases se with _ | e <;> simp [combineScopeErr]

theorem deferBlock_panic_some_err (cfg : ShutdownConfig) (a c : String)
    (lh : Bool) (tn : Nat) (p : PromPushConf) (pe : Option String)
    (e : ErrInfo) (r stk : String) (tty : Bool) :
    (deferBlock cfg a c lh tn p pe (some e) (some (r, stk)) tty).1 =
      Event.errorLog ("panic encountered (in addition to error '" ++ e.text ++
          "'): " ++ r ++ "\n" ++ stk) ::
        (emitEndLogs a c lh tn p pe false ++ shutdownCalls cfg false [false] ++
         [Event.exitProc 1]) := by
  simp [deferBlock, combineScopeErr]

/-- C2 (confirmed).  A recovered panic always terminates the run as a
failure: the exit code is 1, no FINISH record with success `true` can
appear in the trace, and when an error had already been captured before
the panic the terminal error log is the composed message that contains
both the original error text and the panic text (with the stack trace
appended); a panic never yields a success outcome. -/
theorem c2_panic_precedence (inp : RunInput) (r stack : String)
    (hp : inp.panicInfo = some (r, stack)) :
    (runAndExit inp).2 = 1 ∧
    (∀ c lvl tk, Event.finishLog c lvl true tk ∉ (runAndExit inp).1) ∧
    (∀ e, runScopeErr inp (beforeHook inp) = some e →
       Event.errorLog ("panic encountered (in addition to error '" ++ e.text ++
           "'): " ++ r ++ "\n" ++ stack) ∈ (runAndExit inp).1 ∧
       e.text.data <:+: ("panic encountered (in addition to error '" ++ e.text ++
           "'): " ++ r ++ "\n" ++ stack).data ∧
       r.data <:+: ("panic encountered (in addition to error '" ++ e.text ++
           "'): " ++ r ++ "\n" ++ stack).data ∧
       stack.data <:+: ("panic encountered (in addition to error '" ++ e.text ++
           "'): " ++ r ++ "\n" ++ stack).data) := by
  refine ⟨?_, ?_, ?_⟩
  · rw [runAndExit_code, hp, if_pos (combineScopeErr_panic _ r stack)]
  · intro c lvl tk hmem
    have hns : combineScopeErr (runScopeErr inp (beforeHook inp))
        inp.panicInfo ≠ none := by
      rw [hp]
      intro hc
      have hs := combineScopeErr_panic (runScopeErr inp (beforeHook inp)) r stack
      rw [hc] at hs
      simp at hs
    rcases mem_runAndExit _ inp hmem with h | h
    · exact h
    · exact hns (Option.isNone_iff_eq_none.mp h.2.symm)
  · intro e hse
    have htr : (runAndExit inp).1 =
        (beforeHook inp).events ++
          (Event.errorLog ("panic encountered (in addition to error '" ++
              e.text ++ "'): " ++ r ++ "\n" ++ stack) ::
            (emitEndLogs inp.appName (beforeHook inp).currentCmd
                (beforeHook inp).lockHeld inp.tookNs inp.push inp.pushErr false ++
             shutdownCalls (shutdownConfigOf inp (beforeHook inp)) false [false] ++
             [Event.exitProc 1])) := by
      show ((beforeHook inp).events ++ _, _).1 = _
      rw [hse, hp, deferBlock_panic_some_err]
    refine ⟨?_, ?_, ?_, ?_⟩
    · rw [htr]
      exact List.mem_append.mpr (Or.inr (List.mem_cons_self _ _))
    · refine ⟨"panic encountered (in addition to error '".data,
        ("'): " ++ r ++ "\n" ++ stack).data, ?_⟩
      simp [String.data_append]
    · refine ⟨("panic encountered (in addition to error '" ++ e.text ++
          "'): ").data, ("\n" ++ stack).data, ?_⟩
      simp [String.data_append]
    · refine ⟨("panic encountered (in addition to error '" ++ e.text ++
          "'): " ++ r ++ "\n").data, [], ?_⟩
      simp [String.data_append]

/-- Concrete run used to witness the panic-precedence theorem: the command
body has already captured the error `"origerr"` when the panic `"boom"`
(with stack trace `"STK"`) unwinds. -/
def c2Input : RunInput :=
  ⟨"app", [⟨"foo", []⟩], ["prog", "foo"], none, ⟨"", "", "", ""⟩, true, false,
   none, none, none, some "origerr", some ("boom", "STK"), false, 7, none⟩

theorem c2_witness :
    (runAndExit c2Input).2 = 1 ∧
    (Event.errorLog ("panic encountered (in addition to error '" ++ "origerr" ++
        "'): " ++ "boom" ++ "\n" ++ "STK") ∈ (runAndExit c2Input).1 ∧
     "origerr".data <:+: ("panic encountered (in addition to error '" ++
        "origerr" ++ "'): " ++ "boom" ++ "\n" ++ "STK").data ∧
     "boom".data <:+: ("panic encountered (in addition to error '" ++
        "origerr" ++ "'): " ++ "boom" ++ "\n" ++ "STK").data ∧
     "STK".data <:+: ("panic encountered (in addition to error '" ++
        "origerr" ++ "'): " ++ "boom" ++ "\n" ++ "STK").data) :=
  ⟨(c2_panic_precedence c2Input "boom" "STK" rfl).1,
   (c2_panic_precedence c2Input "boom" "STK" rfl).2.2 ⟨"origerr", false⟩
     (by decide)⟩

theorem emitEndLogs_not_held (a c : String) (tn : Nat) (p : PromPushConf)
    (pe : Option String) (s : Bool) :
    emitEndLogs a c false tn p pe s = [] := by
  simp [emitEndLogs]

/-- C5 (confirmed).  On lock contention for a resolved command, the run
exits with code 1; when standard error is not an interactive terminal it
does so silently — no error is ever logged and the outcome recorder emits
nothing — while on an interactive terminal the lock-held error is logged
before the failure exit. -/
theorem c5_lock_contention_policy (inp : RunInput) (cmd : String)
    (hres : resolveCommand (buildCmdNames inp.commands) inp.argv =
      CmdResolution.resolved cmd)
    (hcfg : inp.configErr = none)
    (hlock : inp.lockFree = false)
    (hpanic : inp.panicInfo = none) :
    (runAndExit inp).2 = 1 ∧
    (inp.isTTY = false →
       (∀ m, Event.errorLog m ∉ (runAndExit inp).1) ∧
       (runAndExit inp).1.filter isRecordEvent = []) ∧
    (inp.isTTY = true →
       ∃ pre post, (runAndExit inp).1 =
         pre ++ Event.errorLog (lockedErrText (lockKey inp.appName cmd)) :: post ∧
         Event.exitProc 1 ∈ post) := by
  have hb : beforeHook inp =
      ⟨[Event.lockAttempt (lockKey inp.appName cmd)], false, cmd, none,
        some ⟨lockedErrText (lockKey inp.appName cmd), true⟩⟩ := by
    unfold beforeHook
    rw [hcfg, hres, hlock]
    rfl
  have hse : runScopeErr inp (beforeHook inp) =
      some ⟨lockedErrText (lockKey inp.appName cmd), true⟩ := by
    rw [runScopeErr, hb]
  have hcomb : combineScopeErr (runScopeErr inp (beforeHook inp)) inp.panicInfo =
      some ⟨lockedErrText (lockKey inp.appName cmd), true⟩ := by
    rw [hse, hpanic]
    rfl
  refine ⟨?_, ?_, ?_⟩
  · rw [runAndExit_code, hcomb]
    rfl
  · intro htty
    have htr : (runAndExit inp).1 =
        Event.lockAttempt (lockKey inp.appName cmd) ::
          (shutdownBody ⟨inp.beforeShutdown, none⟩ true ++ [Event.exitProc 1]) := by
      unfold runAndExit deferBlock
      dsimp only
      rw [hcomb, hb, htty]
      simp [shutdownCalls_first, shutdownConfigOf]
    constructor
    · intro m hm
      rw [htr] at hm
      rcases List.mem_cons.mp hm with h | h
      · exact Event.noConfusion h
      · rcases List.mem_append.mp h with h | h
        · exact shutdownBody_no_errorLog _ _ m h
        · simp at h
    · rw [htr]
      rw [List.filter_eq_nil_iff]
      intro ev hev
      rcases List.mem_cons.mp hev with h | h
      · simp [h, isRecordEvent]
      · rcases List.mem_append.mp h with h | h
        · intro hr
          have := List.filter_eq_nil_iff.mp
            (shutdownBody_filter_record ⟨inp.beforeShutdown, none⟩ true) ev h
          exact this hr
        · simp at h
          simp [h, isRecordEvent]
  · intro htty
    have htr : (runAndExit inp).1 =
        [Event.lockAttempt (lockKey inp.appName cmd)] ++
          Event.errorLog (lockedErrText (lockKey inp.appName cmd)) ::
            (emitEndLogs inp.appName cmd false inp.tookNs inp.push inp.pushErr
               false ++
             shutdownCalls ⟨inp.beforeShutdown, none⟩ false [false] ++
             [Event.exitProc 1]) := by
      unfold runAndExit deferBlock
      dsimp only
      rw [hcomb, hb, htty]
      simp [shutdownConfigOf]
    exact ⟨[Event.lockAttempt (lockKey inp.appName cmd)], _, htr, by simp⟩

theorem c5_witness :
    (runAndExit ⟨"app", [⟨"foo", []⟩], ["prog", "foo"], none, ⟨"", "", "", ""⟩,
        false, false, none, none, none, none, none, false, 7, none⟩).2 = 1 ∧
    (runAndExit ⟨"app", [⟨"foo", []⟩], ["prog", "foo"], none, ⟨"", "", "", ""⟩,
        false, false, none, none, none, none, none, false, 7, none⟩).1.filter
      isRecordEvent = [] :=
  ⟨(c5_lock_contention_policy
      ⟨"app", [⟨"foo", []⟩], ["prog", "foo"], none, ⟨"", "", "", ""⟩,
        false, false, none, none, none, none, none, false, 7, none⟩
      "foo" (by decide) rfl rfl rfl).1,
   ((c5_lock_contention_policy
      ⟨"app", [⟨"foo", []⟩], ["prog", "foo"], none, ⟨"", "", "", ""⟩,
        false, false, none, none, none, none, none, false, 7, none⟩
      "foo" (by decide) rfl rfl rfl).2.1 rfl).2⟩

theorem scanLoop_help_mem (m : List (String × String)) (l : List String)
    (h : "-h" ∈ l ∨ "--help" ∈ l) : ∀ cur, scanLoop m l cur = none := by
  induction l with
  | nil => simp at h
  | cons a rest ih =>
    intro cur
    by_cases ha : (a = "-h" || a = "--help") = true
    · rw [scanLoop, if_pos ha]
    · have ha' : ¬a = "-h" ∧ ¬a = "--help" := by simpa using ha
      have hr : "-h" ∈ rest ∨ "--help" ∈ rest := by
        rcases h with h | h <;> rcases List.mem_cons.mp h with h | h
        · exact absurd h.symm ha'.1
        · exact Or.inl h
        · exact absurd h.symm ha'.2
        · exact Or.inr h
      rw [scanLoop, if_neg ha]
      split
      · exact ih hr _
      · exact ih hr _

theorem scanLoop_no_help (m : List (String × String)) (l : List String)
    (h : ¬("-h" ∈ l ∨ "--help" ∈ l)) : ∀ cur, ∃ v, scanLoop m l cur = some v := by
  induction l with
  | nil => intro cur; exact ⟨cur, rfl⟩
  | cons a rest ih =>
    intro cur
    have ha : ¬(a = "-h" || a = "--help") = true := by
      simp only [Bool.or_eq_true, decide_eq_true_eq]
      rintro (ha | ha) <;> subst ha <;> simp at h
    have hr : ¬("-h" ∈ rest ∨ "--help" ∈ rest) := by
      rintro (hr | hr)
      · exact h (Or.inl (List.mem_cons_of_mem a hr))
      · exact h (Or.inr (List.mem_cons_of_mem a hr))
    rw [scanLoop, if_neg ha]
    split
    · exact ih hr _
    · exact ih hr _

theorem resolveCommand_help (m : List (String × String)) (argv : List String)
    (h : "-h" ∈ argv.tail ∨ "--help" ∈ argv.tail) :
    resolveCommand m argv = CmdResolution.helpRequested := by
  unfold resolveCommand
  rw [scanLoop_help_mem m argv.tail h ""]

theorem beforeHook_skip (inp : RunInput)
    (h : resolveCommand (buildCmdNames inp.commands) inp.argv =
           CmdResolution.helpRequested ∨
         resolveCommand (buildCmdNames inp.commands) inp.argv =
           CmdResolution.noCommand) :
    (beforeHook inp).events = [] ∧ (beforeHook inp).lockHeld = false := by
  unfold beforeHook
  rcases inp.configErr with _ | e
  · rcases h with h | h <;> rw [h]
    · exact ⟨rfl, rfl⟩
    · exact ⟨rfl, rfl⟩
  · exact ⟨rfl, rfl⟩

theorem filter_record_of_no_lock (inp : RunInput)
    (hlh : (beforeHook inp).lockHeld = false) :
    (runAndExit inp).1.filter isRecordEvent = [] := by
  have hbev : (beforeHook inp).events.filter isRecordEvent = [] := by
    rw [List.filter_eq_nil_iff]
    intro ev hev
    have hs := mem_beforeHook_events ev inp hev
    cases ev <;> first
      | exact hs.elim
      | simp [isRecordEvent]
  unfold runAndExit deferBlock
  dsimp only
  rw [hlh]
  rcases h : combineScopeErr (runScopeErr inp (beforeHook inp)) inp.panicInfo
    with _ | e <;> simp only [h]
  · simp [List.filter_append, hbev, emitEndLogs_not_held, shutdownCalls_first,
      shutdownBody_filter_record, isRecordEvent]
  · split
    · simp [List.filter_append, hbev, shutdownCalls_first,
        shutdownBody_filter_record, isRecordEvent]
    · simp [List.filter_append, hbev, emitEndLogs_not_held, shutdownCalls_first,
        shutdownBody_filter_record, isRecordEvent]

theorem trace_no_lock_begin (inp : RunInput)
    (hev : (beforeHook inp).events = []) :
    (∀ k, Event.lockAttempt k ∉ (runAndExit inp).1) ∧
    (∀ c, Event.beginLog c ∉ (runAndExit inp).1) := by
  constructor
  · intro k hmem
    simp only [runAndExit, List.mem_append] at hmem
    rcases hmem with h | h
    · rw [hev] at h
      simp at h
    · exact mem_deferBlock _ _ _ _ _ _ _ _ _ _ _ h
  · intro c hmem
    simp only [runAndExit, List.mem_append] at hmem
    rcases hmem with h | h
    · rw [hev] at h
      simp at h
    · exact mem_deferBlock _ _ _ _ _ _ _ _ _ _ _ h

/-- C8 (confirmed).  When `--help` (or `-h`) is the first argument — even
with a named command also present later — the `Before` hook returns before
any locking: the trace contains no lock attempt, no BEGIN log and no
outcome records; and in general the outcome recorder emits nothing for
any run in which no lock was ever taken. -/
theorem c8_help_first_argument (inp : RunInput)
    (h : inp.argv.tail.head? = some "-h" ∨ inp.argv.tail.head? = some "--help") :
    resolveCommand (buildCmdNames inp.commands) inp.argv =
      CmdResolution.helpRequested ∧
    (∀ k, Event.lockAttempt k ∉ (runAndExit inp).1) ∧
    (∀ c, Event.beginLog c ∉ (runAndExit inp).1) ∧
    (runAndExit inp).1.filter isRecordEvent = [] ∧
    (∀ inp' : RunInput, (beforeHook inp').lockHeld = false →
       (runAndExit inp').1.filter isRecordEvent = []) := by
  have hmem : "-h" ∈ inp.argv.tail ∨ "--help" ∈ inp.argv.tail := by
    rcases h with h | h
    · exact Or.inl (List.mem_of_mem_head? (Option.mem_def.mpr h))
    · exact Or.inr (List.mem_of_mem_head? (Option.mem_def.mpr h))
  have hres := resolveCommand_help (buildCmdNames inp.commands) inp.argv hmem
  obtain ⟨hev, hlh⟩ := beforeHook_skip inp (Or.inl hres)
  obtain ⟨hlock, hbegin⟩ := trace_no_lock_begin inp hev
  exact ⟨hres, hlock, hbegin, filter_record_of_no_lock inp hlh,
    fun inp' h' => filter_record_of_no_lock inp' h'⟩

theorem c8_witness :
    resolveCommand
        (buildCmdNames [GoCommand.mk "foo" []])
        ["prog", "--help", "foo"] = CmdResolution.helpRequested ∧
    (runAndExit ⟨"app", [⟨"foo", []⟩], ["prog", "--help", "foo"], none,
        ⟨"", "", "", ""⟩, true, false, none, none, none, none, none, false, 7,
        none⟩).1.filter isRecordEvent = [] :=
  ⟨(c8_help_first_argument
      ⟨"app", [⟨"foo", []⟩], ["prog", "--help", "foo"], none, ⟨"", "", "", ""⟩,
        true, false, none, none, none, none, none, false, 7, none⟩
      (Or.inr rfl)).1,
   (c8_help_first_argument
      ⟨"app", [⟨"foo", []⟩], ["prog", "--help", "foo"], none, ⟨"", "", "", ""⟩,
        true, false, none, none, none, none, none, false, 7, none⟩
      (Or.inr rfl)).2.2.2.1⟩

/-- C10 (confirmed).  A `-h` or `--help` anywhere in the raw argument list
— even after an argument that already resolved to a known command alias —
makes the pre-execution hook return before lock acquisition: the run
attempts no lock, logs no BEGIN, and records no outcome. -/
theorem c10_help_any_position (inp : RunInput)
    (h : "-h" ∈ inp.argv.tail ∨ "--help" ∈ inp.argv.tail) :
    resolveCommand (buildCmdNames inp.commands) inp.argv =
      CmdResolution.helpRequested ∧
    (∀ k, Event.lockAttempt k ∉ (runAndExit inp).1) ∧
    (∀ c, Event.beginLog c ∉ (runAndExit inp).1) ∧
    (runAndExit inp).1.filter isRecordEvent = [] := by
  have hres := resolveCommand_help (buildCmdNames inp.commands) inp.argv h
  obtain ⟨hev, hlh⟩ := beforeHook_skip inp (Or.inl hres)
  obtain ⟨hlock, hbegin⟩ := trace_no_lock_begin inp hev
  exact ⟨hres, hlock, hbegin, filter_record_of_no_lock inp hlh⟩

theorem c10_witness :
    resolveCommand
        (buildCmdNames [GoCommand.mk "foo" []])
        ["prog", "foo", "-h"] = CmdResolution.helpRequested ∧
    (runAndExit ⟨"app", [⟨"foo", []⟩], ["prog", "foo", "-h"], none,
        ⟨"", "", "", ""⟩, true, false, none, none, none, none, none, false, 7,
        none⟩).1.filter isRecordEvent = [] :=
  ⟨(c10_help_any_position
      ⟨"app", [⟨"foo", []⟩], ["prog", "foo", "-h"], none, ⟨"", "", "", ""⟩,
        true, false, none, none, none, none, none, false, 7, none⟩
      (Or.inl (by decide))).1,
   (c10_help_any_position
      ⟨"app", [⟨"foo", []⟩], ["prog", "foo", "-h"], none, ⟨"", "", "", ""⟩,
        true, false, none, none, none, none, none, false, 7, none⟩
      (Or.inl (by decide))).2.2.2⟩

theorem beforeHook_locked (inp : RunInput) (cmd : String)
    (hres : resolveCommand (buildCmdNames inp.commands) inp.argv =
      CmdResolution.resolved cmd)
    (hcfg : inp.configErr = none)
    (hlock : inp.lockFree = true) :
    (beforeHook inp).events =
      [Event.lockAttempt (lockKey inp.appName cmd), Event.beginLog cmd] ∧
    (beforeHook inp).lockHeld = true ∧
    (beforeHook inp).currentCmd = cmd ∧
    ((beforeHook inp).err = none ∨
      ∃ t, (beforeHook inp).err = some ⟨t, false⟩) := by
  unfold beforeHook
  rw [hcfg, hres, hlock]
  cases hg : inp.hasGlobalInit
  · exact ⟨rfl, rfl, rfl, Or.inl rfl⟩
  · rcases hge : inp.globalInitErr with _ | ge
    · exact ⟨rfl, rfl, rfl, Or.inl rfl⟩
    · exact ⟨rfl, rfl, rfl, Or.inr ⟨ge, rfl⟩⟩

theorem runScopeErr_not_locked (inp : RunInput)
    (hb : (beforeHook inp).err = none ∨
          ∃ t, (beforeHook inp).err = some ⟨t, false⟩) :
    runScopeErr inp (beforeHook inp) = none ∨
      ∃ t, runScopeErr inp (beforeHook inp) = some ⟨t, false⟩ := by
  unfold runScopeErr
  rcases hb with h | ⟨t, h⟩ <;> rw [h]
  · rcases hc : inp.cmdErr with _ | m
    · exact Or.inl rfl
    · exact Or.inr ⟨m, rfl⟩
  · exact Or.inr ⟨t, rfl⟩

theorem combineScopeErr_not_locked (se : Option ErrInfo)
    (pi : Option (String × String))
    (hse : se = none ∨ ∃ t, se = some ⟨t, false⟩) :
    combineScopeErr se pi = none ∨
      ∃ t, combineScopeErr se pi = some ⟨t, false⟩ := by
  rcases pi with _ | ⟨r, stk⟩
  · exact hse
  · rcases hse with h | ⟨t, h⟩ <;> rw [h]
    · exact Or.inr ⟨_, rfl⟩
    · exact Or.inr ⟨_, rfl⟩

theorem finish_mem_emitEndLogs (a c : String) (tn : Nat) (p : PromPushConf)
    (pe : Option String) (s : Bool) :
    Event.finishLog c (if s then .info else .warn) s (tn / 1000000)
      ∈ emitEndLogs a c true tn p pe s := by
  by_cases hu : p.url = "" <;> simp [emitEndLogs, hu]

theorem finish_in_runAndExit (inp : RunInput)
    (hlh : (beforeHook inp).lockHeld = true)
    (hnl : combineScopeErr (runScopeErr inp (beforeHook inp)) inp.panicInfo =
             none ∨
           ∃ t, combineScopeErr (runScopeErr inp (beforeHook inp))
             inp.panicInfo = some ⟨t, false⟩) :
    ∃ lvl s, Event.finishLog (beforeHook inp).currentCmd lvl s
      (inp.tookNs / 1000000) ∈ (runAndExit inp).1 := by
  rcases hnl with hc | ⟨t, hc⟩
  · refine ⟨.info, true, ?_⟩
    simp only [runAndExit, List.mem_append]
    right
    unfold deferBlock
    rw [hc, hlh]
    exact List.mem_append_left _ (List.mem_append_left _
      (finish_mem_emitEndLogs inp.appName (beforeHook inp).currentCmd
        inp.tookNs inp.push inp.pushErr true))
  · refine ⟨.warn, false, ?_⟩
    simp only [runAndExit, List.mem_append]
    right
    unfold deferBlock
    rw [hc, hlh]
    simp only [Bool.false_and, Bool.false_eq_true, if_false]
    exact List.mem_cons_of_mem _ (List.mem_append_left _
      (List.mem_append_left _
        (finish_mem_emitEndLogs inp.appName (beforeHook inp).currentCmd
          inp.tookNs inp.push inp.pushErr false)))

/-- C9 (corrected claim).  When the alias set is empty (a lone program
action), locking uses the sentinel command name `"Action"` and timing is
still recorded: a lock attempt keyed on `Action`, a BEGIN log, and a
FINISH record with the run's duration all appear in the trace.  When the
alias set is nonempty and no argument matches any known alias, however,
the hook resolves to "no command" and both locking and timing are
skipped. -/
theorem c9_sentinel_action (inp : RunInput) :
    (buildCmdNames inp.commands = [] →
     ¬("-h" ∈ inp.argv.tail ∨ "--help" ∈ inp.argv.tail) →
     inp.configErr = none →
     resolveCommand (buildCmdNames inp.commands) inp.argv =
       CmdResolution.resolved "Action" ∧
     (inp.lockFree = true →
        Event.lockAttempt (lockKey inp.appName "Action") ∈ (runAndExit inp).1 ∧
        Event.beginLog "Action" ∈ (runAndExit inp).1 ∧
        ∃ lvl s, Event.finishLog "Action" lvl s (inp.tookNs / 1000000)
          ∈ (runAndExit inp).1)) ∧
    (resolveCommand (buildCmdNames inp.commands) inp.argv =
       CmdResolution.noCommand →
     (∀ k, Event.lockAttempt k ∉ (runAndExit inp).1) ∧
     (∀ c, Event.beginLog c ∉ (runAndExit inp).1) ∧
     (runAndExit inp).1.filter isRecordEvent = []) := by
  constructor
  · intro hempty hnohelp hcfg
    have hres : resolveCommand (buildCmdNames inp.commands) inp.argv =
        CmdResolution.resolved "Action" := by
      unfold resolveCommand
      obtain ⟨v, hv⟩ := scanLoop_no_help (buildCmdNames inp.commands)
        inp.argv.tail hnohelp ""
      rw [hv, hempty]
      rfl
    refine ⟨hres, ?_⟩
    intro hlock
    obtain ⟨hev, hlh, hcmd, herr⟩ := beforeHook_locked inp "Action" hres hcfg hlock
    have hnl := combineScopeErr_not_locked _ inp.panicInfo
      (runScopeErr_not_locked inp herr)
    refine ⟨?_, ?_, ?_⟩
    · simp only [runAndExit, List.mem_append]
      left
      rw [hev]
      simp
    · simp only [runAndExit, List.mem_append]
      left
      rw [hev]
      simp
    · have := finish_in_runAndExit inp hlh hnl
      rw [hcmd] at this
      exact this
  · intro hres
    obtain ⟨hev, hlh⟩ := beforeHook_skip inp (Or.inr hres)
    obtain ⟨hlock, hbegin⟩ := trace_no_lock_begin inp hev
    exact ⟨hlock, hbegin, filter_record_of_no_lock inp hlh⟩

/-- C9 counterexample.  With a nonempty alias set (`foo`) and an
invocation none of whose arguments matches any alias, the code skips
locking and timing entirely — no lock attempt, no BEGIN/FINISH —
contradicting the claim that such a run locks under the sentinel action
name and still records timing. -/
theorem c9_counterexample :
    buildCmdNames [GoCommand.mk "foo" []] ≠ [] ∧
    resolveCommand (buildCmdNames [GoCommand.mk "foo" []]) ["prog", "bar"] =
      CmdResolution.noCommand ∧
    (runAndExit ⟨"app", [⟨"foo", []⟩], ["prog", "bar"], none, ⟨"", "", "", ""⟩,
        true, false, none, none, none, none, none, false, 7, none⟩).1.filter
      isLockAttempt = [] ∧
    (runAndExit ⟨"app", [⟨"foo", []⟩], ["prog", "bar"], none, ⟨"", "", "", ""⟩,
        true, false, none, none, none, none, none, false, 7, none⟩).1.filter
      isBeginLog = [] ∧
    (runAndExit ⟨"app", [⟨"foo", []⟩], ["prog", "bar"], none, ⟨"", "", "", ""⟩,
        true, false, none, none, none, none, none, false, 7, none⟩).1.filter
      isRecordEvent = [] := by
  decide

theorem c9_witness :
    resolveCommand (buildCmdNames ([] : List GoCommand)) ["prog", "bar"] =
      CmdResolution.resolved "Action" ∧
    Event.lockAttempt (lockKey "app" "Action") ∈
      (runAndExit ⟨"app", [], ["prog", "bar"], none, ⟨"", "", "", ""⟩, true,
        false, none, none, none, none, none, false, 1500000000, none⟩).1 ∧
    Event.beginLog "Action" ∈
      (runAndExit ⟨"app", [], ["prog", "bar"], none, ⟨"", "", "", ""⟩, true,
        false, none, none, none, none, none, false, 1500000000, none⟩).1 :=
  ⟨((c9_sentinel_action
      ⟨"app", [], ["prog", "bar"], none, ⟨"", "", "", ""⟩, true, false, none,
        none, none, none, none, false, 1500000000, none⟩).1
      rfl (by decide) rfl).1,
   (((c9_sentinel_action
      ⟨"app", [], ["prog", "bar"], none, ⟨"", "", "", ""⟩, true, false, none,
        none, none, none, none, false, 1500000000, none⟩).1
      rfl (by decide) rfl).2 rfl).1,
   (((c9_sentinel_action
      ⟨"app", [], ["prog", "bar"], none, ⟨"", "", "", ""⟩, true, false, none,
        none, none, none, none, false, 1500000000, none⟩).1
      rfl (by decide) rfl).2 rfl).2.1⟩

end UFcli
